import Mathlib

/-!
Shallow embedding of jpl2mpc.cpp (conversion of a JPL Horizons text
ephemeris to the fixed-width format used by MPC DASO / eph2tle).

Modelling conventions:
* an input line is the buffer `fgets` returns: a `List Char` that
  includes the trailing newline (when present in the file) and holds
  no NUL characters, so `strlen` is the list length;
* C doubles are modelled as exact rationals; `atof`/`atoi` are
  modelled on their decimal core (leading blanks, optional sign,
  digits, fraction, exponent), which covers every numeric field the
  program reads;
* reads past the string terminator yield the NUL character in the
  defaulted accessors, mirroring the zero byte that terminates the
  buffer;
* the output file is a character list plus a write position;
  `fprintf` overwrites at the position (appending when the position
  is at the end) and `fseek(..., 0, SEEK_SET)` resets the position,
  which models the final rewind-and-patch of the header;
* `printf` output (console) is modelled as an accumulated character
  list in the state.
-/

/-- Read a character at an index; out-of-range reads give the NUL byte,
as reading at the terminator of the C buffer would. -/
def charAtD (l : List Char) (i : Nat) : Char := l.getD i (Char.ofNat 0)

/-- C `isspace` on the default locale: blank, TAB, LF, VT, FF, CR. -/
def isSpaceC (c : Char) : Bool := c == ' ' || (9 ≤ c.toNat && c.toNat ≤ 13)

/-- C `isdigit`. -/
def isDigitC (c : Char) : Bool := 48 ≤ c.toNat && c.toNat ≤ 57

/-- Numeric value of a decimal digit character. -/
def digitVal (c : Char) : Nat := c.toNat - 48

/-- Value of a digit run, most significant first. -/
def digitsVal (ds : List Char) : Nat := ds.foldl (fun a c => a * 10 + digitVal c) 0

/-- Skip the leading whitespace, as `atof`/`atoi` do. -/
def skipWS : List Char → List Char
  | [] => []
  | c :: r => if isSpaceC c then skipWS r else c :: r

/-- C `atoi`: leading whitespace, optional sign, leading digit run
(no digits gives 0). Overflow cannot occur on this program's inputs. -/
def atoiZ (l : List Char) : Int :=
  match skipWS l with
  | '-' :: r => -(digitsVal (r.takeWhile isDigitC) : Int)
  | '+' :: r => (digitsVal (r.takeWhile isDigitC) : Int)
  | r => (digitsVal (r.takeWhile isDigitC) : Int)

/-- C `atof` (decimal core of `strtod`): leading whitespace, optional
sign, integer digits, optional fraction, optional exponent.  Inputs
with no leading numeric token give 0, as in C. -/
def atofQ (l : List Char) : ℚ :=
  let l0 := skipWS l
  let sgn : Bool × List Char :=
    match l0 with
    | '-' :: r => (true, r)
    | '+' :: r => (false, r)
    | _ => (false, l0)
  let ip := sgn.2.takeWhile isDigitC
  let r1 := sgn.2.dropWhile isDigitC
  let fr : List Char × List Char :=
    match r1 with
    | '.' :: r => (r.takeWhile isDigitC, r.dropWhile isDigitC)
    | _ => ([], r1)
  let ex : Int :=
    match fr.2 with
    | c :: r =>
      if c == 'e' || c == 'E' then
        match r with
        | '-' :: r2 => -(digitsVal (r2.takeWhile isDigitC) : Int)
        | '+' :: r2 => (digitsVal (r2.takeWhile isDigitC) : Int)
        | _ => (digitsVal (r.takeWhile isDigitC) : Int)
      else 0
    | [] => 0
  let mant : ℚ := (digitsVal ip : ℚ) + (digitsVal fr.1 : ℚ) / (10 : ℚ) ^ fr.1.length
  let v := mant * (10 : ℚ) ^ ex
  if sgn.1 then -v else v

/-- Index of the first occurrence of `needle` in `hay` (C `strstr`). -/
def findSubIdx : List Char → List Char → Option Nat
  | [], needle => if needle.isEmpty then some 0 else none
  | c :: r, needle =>
    if needle.isPrefixOf (c :: r) then some 0
    else (findSubIdx r needle).map (· + 1)

/-- Whether `needle` occurs in `hay` (C `strstr` gives non-NULL). -/
def containsSub (hay needle : List Char) : Bool := (findSubIdx hay needle).isSome

/-- Name lookup table for the JPL identifiers the program recognizes
(`look_up_name` in jpl2mpc.cpp). -/
def look_up_name (idx : Int) : List Char :=
  if idx = -21 then ( "SOHO" ).data
  else if idx = -48 then ( "Hubble Space Telescope" ).data
  else if idx = -82 then ( "Cassini" ).data
  else if idx = -234 then ( "STEREO-A" ).data
  else if idx = -235 then ( "STEREO-B" ).data
  else if idx = -144 then ( "Solar Orbiter" ).data
  else if idx = -95 then ( "TESS = 2018-038A = NORAD 43435" ).data
  else if idx = -79 then ( "Spitzer Space Telescope" ).data
  else if idx = -96 then ( "Parker Space Probe" ).data
  else if idx = -98 then ( "New Horizons" ).data
  else if idx = -151 then ( "Chandra = 1999-040B = NORAD 25867" ).data
  else if idx = -163 then ( "WISE" ).data
  else if idx = -139479 then ( "Gaia = 2013-074A = NORAD 39479" ).data
  else if idx = -9901491 then ( "Tianwen-1 = 2020-049A = NORAD 45935" ).data
  else if idx = -37 then ( "Hayabusa 2 = 2014-076A = NORAD 40319" ).data
  else []

/-- `AU_IN_KM` from jpl2mpc.cpp. -/
def AU_IN_KM : ℚ := 1.495978707e8

/-- `seconds_per_day` from jpl2mpc.cpp (24*60*60). -/
def seconds_per_day : ℚ := 24 * 60 * 60

/-- `sin_obliq_2000` from `get_coords_from_buff`. -/
def sin_obliq_2000 : ℚ := 0.397777155931913701597179975942380896684

/-- `cos_obliq_2000` from `get_coords_from_buff`. -/
def cos_obliq_2000 : ℚ := 0.917482062069181825744000384639406458043

/-- A parsed 3-vector (the `coords[3]` array). -/
@[ext] structure Vec3 where
  x : ℚ
  y : ℚ
  z : ℚ
deriving DecidableEq, Repr

/-- Offsets at which the three coordinate fields are read: the labelled
layout {4,30,56} when an 'X' tag sits at offset 1 or 2 of the line,
else the unlabelled layout {1,24,47} (jpl2mpc.cpp lines 81-88). -/
def coordOffsets (buff : List Char) : Nat × Nat × Nat :=
  if charAtD buff 1 == 'X' || charAtD buff 2 == 'X' then (4, 30, 56)
  else (1, 24, 47)

/-- `get_coords_from_buff`: read the three fields at the selected
offsets, then, for ecliptic input, rotate about the x axis by the
J2000 obliquity exactly as the source does. -/
def get_coords_from_buff (buff : List Char) (is_ecliptical : Bool) : Vec3 :=
  let locs := coordOffsets buff
  let c : Vec3 :=
    ⟨atofQ (buff.drop locs.1), atofQ (buff.drop locs.2.1), atofQ (buff.drop locs.2.2)⟩
  if is_ecliptical then
    ⟨c.x, c.y * cos_obliq_2000 - c.z * sin_obliq_2000,
          c.z * cos_obliq_2000 + c.y * sin_obliq_2000⟩
  else c

/-- Position unit conversion in the main loop: each component is
divided by `AU_IN_KM` when the km/s flag is set (lines 176-178). -/
def convertPos (in_km_s : Bool) (v : Vec3) : Vec3 :=
  if in_km_s then ⟨v.x / AU_IN_KM, v.y / AU_IN_KM, v.z / AU_IN_KM⟩ else v

/-- Velocity unit conversion in the main loop: each component is
multiplied by `seconds_per_day / AU_IN_KM` when the km/s flag is set
(lines 191-193). -/
def convertVel (in_km_s : Bool) (v : Vec3) : Vec3 :=
  if in_km_s then
    ⟨v.x * (seconds_per_day / AU_IN_KM), v.y * (seconds_per_day / AU_IN_KM),
     v.z * (seconds_per_day / AU_IN_KM)⟩
  else v

/-- The character of a decimal digit. -/
def digitCharOf (d : Nat) : Char := Char.ofNat (48 + d % 10)

/-- Digit accumulator: peel decimal digits least-significant first
onto the front of the accumulator; the fuel (starting at n+1) always
suffices. -/
def natToCharsAux : Nat → Nat → List Char → List Char
  | 0, _, acc => acc
  | fuel + 1, n, acc =>
    if n / 10 = 0 then digitCharOf (n % 10) :: acc
    else natToCharsAux fuel (n / 10) (digitCharOf (n % 10) :: acc)

/-- Decimal digits of a natural number, most significant first. -/
def natToChars (n : Nat) : List Char := natToCharsAux (n + 1) n []

/-- Round to the nearest integer, ties to even (the IEEE default the C
`printf` applies at the last kept decimal). -/
def roundHalfEven (q : ℚ) : Int :=
  let f := Int.floor q
  let r := q - (f : ℚ)
  if r < 1/2 then f
  else if (1 : ℚ)/2 < r then f + 1
  else if f % 2 = 0 then f else f + 1

/-- Digits of `n` (the value already scaled by 10^prec) with a decimal
point inserted `prec` places from the right, zero padded on the left
so an integer part is always present. -/
def fmtFixedBody (n : Nat) (prec : Nat) : List Char :=
  let s := natToChars n
  let s := List.replicate (prec + 1 - s.length) '0' ++ s
  s.take (s.length - prec) ++ '.' :: s.drop (s.length - prec)

/-- `printf` `%*.pf`: fixed-point rendering right-justified with
blanks to the field width (longer values widen the field, as in C). -/
def fmtF (width prec : Nat) (q : ℚ) : List Char :=
  let body :=
    if q < 0 then '-' :: fmtFixedBody (roundHalfEven (-q * (10 : ℚ) ^ prec)).toNat prec
    else fmtFixedBody (roundHalfEven (q * (10 : ℚ) ^ prec)).toNat prec
  List.replicate (width - body.length) ' ' ++ body

/-- `printf` `%*u`. -/
def fmtU (width : Nat) (n : Nat) : List Char :=
  let body := natToChars n
  List.replicate (width - body.length) ' ' ++ body

/-- The `"%13.5f %14.10f %4u"` header rendering (`header_fmt`). -/
def fmtHeader (jd step : ℚ) (n : Nat) : List Char :=
  fmtF 13 5 jd ++ ' ' :: (fmtF 14 10 step ++ ' ' :: fmtU 4 n)

/-- One data record's position part, `"%13.5f%16.10f%16.10f%16.10f"`. -/
def posRecord (jd : ℚ) (v : Vec3) : List Char :=
  fmtF 13 5 jd ++ (fmtF 16 10 v.x ++ (fmtF 16 10 v.y ++ fmtF 16 10 v.z))

/-- The velocity continuation, `" %16.12f%16.12f%16.12f\n"`. -/
def velRecord (v : Vec3) : List Char :=
  ' ' :: (fmtF 16 12 v.x ++ (fmtF 16 12 v.y ++ (fmtF 16 12 v.z ++ ['\n'])))

/-- Marker substring for state-vector (velocity) tables. -/
def litVXVYVZ : List Char := "   VX    VY    VZ".data

/-- Marker substring for the equatorial frame. -/
def litEquator : List Char := "Earth Mean Equator and Equinox".data

/-- Alternative marker substring for the equatorial frame. -/
def litICRF : List Char := "Reference frame : ICRF".data

/-- Marker substring for the ecliptic frame. -/
def litEcliptic : List Char := "Ecliptic and Mean Equinox of Reference Epoch".data

/-- Alternative marker substring for the ecliptic frame. -/
def litEclJ2000 : List Char := "Reference frame : Ecliptic of J2000".data

/-- Line tag carrying a spacecraft identifier at offset 71. -/
def litRevised : List Char := " Revised:".data

/-- Line tag carrying a target body name. -/
def litTarget : List Char := "Target body name:".data

/-- Identifier lead-in searched for in a target body name line. -/
def litParenMinus : List Char := "(-".data

/-- Line tag for km/s output units. -/
def litKMS : List Char := "Output units    : KM-S".data

/-- Calendar-date tag of the timestamp fingerprint, at offset 17. -/
def litAD : List Char := " = A.D.".data

/-- Time-scale tag of the timestamp fingerprint, at offset 50. -/
def litTDB : List Char := " TDB".data

/-- Sentinel terminating the preamble copy. -/
def litSOE : List Char := "$$SOE".data

/-- Fixed frame/unit flag suffix written after the provisional header. -/
def lit011 : List Char := " 0,1,1".data

/-- Lead-in of the object-name annotation line. -/
def litGeocentric : List Char := " (500) Geocentric: ".data

/-- Message printed when neither or both frame flags are set. -/
def frameErrMsg : List Char :=
  "Input coordinates must be in the Earth mean equator and equinox\nor in J2000 ecliptic coordinates\n".data

/-- Message printed when a coordinate line is missing. -/
def truncErrMsg : List Char := "Failed to get data from input file\n".data

/-- Usage text printed on argument/open errors (lines 126-135). -/
def usageMsg : List Char :=
  "\nJPL2MPC takes input ephemeri(de)s generated by HORIZONS  and,\nproduces file(s) suitable for use in DASO or eph2tle.  The name of\nthe input ephemeris must be provided as a command-line argument.\nFor example:\n\njpl2mpc gaia.txt\n\nThe JPL ephemeris must be in text form (can use the 'download/save'\noption for this).\n   The bottom of 'jpl2mpc.cpp' shows how to submit a job via e-mail\nto the Horizons server that will get you an ephemeris in the necessary\nformat,  or how to get such ephemerides using a URL.\n".data

/-- The timestamp-line test of jpl2mpc.cpp lines 143-146:
JD token in (2000000, 3000000), length above 54, `" = A.D."` at
offset 17, `:` at 42, `.` at 45, `" TDB"` at offset 50, evaluated in
the source's short-circuit order.  Kept irreducible so that case
splits on the scan loop do not unfold the parser; concrete instances
are evaluated with full unfolding. -/
@[irreducible] def qualifies (l : List Char) : Bool :=
  decide ((2000000 : ℚ) < atofQ l) && decide (atofQ l < (3000000 : ℚ)) &&
  decide (54 < l.length) &&
  litAD.isPrefixOf (l.drop 17) &&
  (charAtD l 42 == ':') && (charAtD l 45 == '.') &&
  litTDB.isPrefixOf (l.drop 50)

/-- The output stream: accumulated bytes plus the write position.
Writing overwrites from the position on (appending past the end),
which is how the final header patch works. -/
@[ext] structure OutFile where
  content : List Char
  pos : Nat
deriving DecidableEq, Repr

/-- A freshly opened (empty) output file. -/
def OutFile.empty : OutFile := ⟨[], 0⟩

/-- `fprintf`: overwrite `s` at the current position. -/
def OutFile.write (f : OutFile) (s : List Char) : OutFile :=
  ⟨f.content.take f.pos ++ s ++ f.content.drop (f.pos + s.length), f.pos + s.length⟩

/-- `fseek(f, 0, SEEK_SET)`. -/
def OutFile.seekStart (f : OutFile) : OutFile := ⟨f.content, 0⟩

/-- The mutable state of `main`'s scan loop: the counters, epoch data,
the four detector flags, the resolved object name, the output file and
the console (printf) output. -/
@[ext] structure PState where
  n_written : Nat
  jd0 : ℚ
  step_size : ℚ
  int_jd0 : Int
  frac_jd0 : ℚ
  state_vectors : Bool
  is_equatorial : Bool
  is_ecliptical : Bool
  in_km_s : Bool
  object_name : List Char
  out : OutFile
  console : List Char
deriving DecidableEq, Repr

/-- The `else if` marker chain of the scan loop (lines 199-219): at
most one marker fires per line and updates one flag or the name. -/
def detectorUpdate (st : PState) (l : List Char) : PState :=
  if litVXVYVZ.isPrefixOf l then { st with state_vectors := true }
  else if containsSub l litEquator then { st with is_equatorial := true }
  else if containsSub l litICRF then { st with is_equatorial := true }
  else if containsSub l litEcliptic then { st with is_ecliptical := true }
  else if containsSub l litEclJ2000 then { st with is_ecliptical := true }
  else if litRevised.isPrefixOf l then
    { st with object_name := look_up_name (atoiZ (l.drop 71)) }
  else if litTarget.isPrefixOf l then
    match findSubIdx l litParenMinus with
    | some i => { st with object_name := look_up_name (atoiZ (l.drop (i + 1))) }
    | none => st
  else if litKMS.isPrefixOf l then { st with in_km_s := true }
  else st

/-- The descriptive line written with the first sample: blank, or the
object-name annotation. -/
def descrLine (name : List Char) : List Char :=
  if name.isEmpty then ['\n'] else litGeocentric ++ (name ++ ['\n'])

/-- Append a `printf` message to the console. -/
def addConsole (st : PState) (msg : List Char) : PState :=
  { st with console := st.console ++ msg }

/-- The epoch/step bookkeeping on a qualifying line (lines 157-169):
the first sample records the epoch and writes the descriptive line,
exactly the second sample sets the step size, later samples change
nothing. -/
def sampleUpd (st : PState) (l : List Char) : PState :=
  if st.n_written == 0 then
    { st with jd0 := atofQ l, int_jd0 := atoiZ l, frac_jd0 := atofQ (l.drop 7),
              out := st.out.write (descrLine st.object_name) }
  else if st.n_written == 1 then
    { st with step_size :=
        (atofQ (l.drop 7) - st.frac_jd0) + ((atoiZ l - st.int_jd0 : Int) : ℚ) }
  else st

/-- Parse the position coordinate line, convert units, write the
record's position part (lines 175-180). -/
def emitPos (st : PState) (jd : ℚ) (cl : List Char) : PState :=
  { st with out := st.out.write (posRecord jd (convertPos st.in_km_s (get_coords_from_buff cl st.is_ecliptical))) }

/-- The line break closing a position-only record (line 182). -/
def emitNL (st : PState) : PState := { st with out := st.out.write ['\n'] }

/-- Parse the velocity coordinate line, convert units, write the
velocity continuation (lines 190-195). -/
def emitVel (st : PState) (vl : List Char) : PState :=
  { st with out := st.out.write (velRecord (convertVel st.in_km_s (get_coords_from_buff vl st.is_ecliptical))) }

/-- `n_written++` (line 197). -/
def bump (st : PState) : PState := { st with n_written := st.n_written + 1 }

/-- The scan loop of `main` (lines 142-219).  Returns `some code` with
the state at abort for an early `return code`, else `none` and the
final state.  A qualifying line consumes the following line (and a
second one in state-vector mode) as coordinate line(s). -/
def processLines : PState → List (List Char) → Option Int × PState
  | st, [] => (none, st)
  | st, l :: rest =>
    if qualifies l then
      if st.is_equatorial == st.is_ecliptical then
        (some (-1), addConsole st frameErrMsg)
      else
        match rest with
        | [] => (some (-2), addConsole (sampleUpd st l) truncErrMsg)
        | cl :: rest2 =>
          let st2 := emitPos (sampleUpd st l) (atofQ l) cl
          if st2.state_vectors then
            match rest2 with
            | [] => (some (-2), addConsole st2 truncErrMsg)
            | vl :: rest3 => processLines (bump (emitVel st2 vl)) rest3
          else processLines (bump (emitNL st2)) rest2
    else processLines (detectorUpdate st l) rest

/-- The trailer comment (`ver` stands for the `__DATE__` stamp). -/
def trailerLine (ver : List Char) : List Char :=
  "\n\nCreated from Horizons data by 'jpl2mpc', ver ".data ++ (ver ++ ['\n'])

/-- The preamble copy: every input line before the first one starting
with `$$SOE`, verbatim. -/
def preambleOf (lines : List (List Char)) : List Char :=
  (lines.takeWhile (fun l => !(litSOE.isPrefixOf l))).flatten

/-- Output file after the provisional header and flag suffix. -/
def initialOut : OutFile := (OutFile.empty.write (fmtHeader 0 0 0)).write lit011

/-- State at the top of the scan loop. -/
def initState : PState :=
  { n_written := 0, jd0 := 0, step_size := 0, int_jd0 := 0, frac_jd0 := 0,
    state_vectors := false, is_equatorial := false, is_ecliptical := false,
    in_km_s := false, object_name := [], out := initialOut, console := [] }

/-- Result of a run: the process exit code, the output file, the
console output. -/
structure RunResult where
  exitCode : Int
  out : OutFile
  console : List Char
deriving DecidableEq, Repr

/-- `main` from the successful open on: provisional header, scan loop,
and on success the trailer, preamble copy and header patch. -/
def jpl2mpc_run (ver : List Char) (lines : List (List Char)) : RunResult :=
  match processLines initState lines with
  | (some code, st) => ⟨code, st.out, st.console⟩
  | (none, st) =>
    let o1 := st.out.write (trailerLine ver)
    let o2 := o1.write (preambleOf lines)
    let o3 := o2.seekStart.write (fmtHeader st.jd0 st.step_size st.n_written)
    ⟨0, o3, st.console⟩

/-- Whole-program model: `none` stands for a missing or unopenable
input (usage text, exit -1), otherwise the input's lines are scanned. -/
def jpl2mpc_main (ver : List Char) (input : Option (List (List Char))) : RunResult :=
  match input with
  | none => ⟨-1, OutFile.empty, usageMsg⟩
  | some lines => jpl2mpc_run ver lines

/-- The first output line (up to the first newline). -/
def firstLineOf (content : List Char) : List Char :=
  content.takeWhile (fun c => !(c == '\n'))

/-- The detector effect of a run of non-qualifying lines. -/
def detectorFold (st : PState) (lines : List (List Char)) : PState :=
  lines.foldl detectorUpdate st

/-! ### Basic component lemmas -/

theorem OutFile.write_eq (f : OutFile) (s : List Char) (h : f.pos = f.content.length) :
    f.write s = ⟨f.content ++ s, (f.content ++ s).length⟩ := by
  simp [OutFile.write, h, List.drop_eq_nil_of_le]

theorem OutFile.write_write_eq (f : OutFile) (s1 s2 : List Char) (h : f.pos = f.content.length) :
    (f.write s1).write s2 = ⟨f.content ++ s1 ++ s2, (f.content ++ s1 ++ s2).length⟩ := by
  rw [OutFile.write_eq f s1 h]
  rw [OutFile.write_eq _ _ (by simp)]

theorem detectorUpdate_n_written (st : PState) (l : List Char) :
    (detectorUpdate st l).n_written = st.n_written := by
  unfold detectorUpdate; (repeat' split) <;> rfl

theorem detectorUpdate_jd0 (st : PState) (l : List Char) :
    (detectorUpdate st l).jd0 = st.jd0 := by
  unfold detectorUpdate; (repeat' split) <;> rfl

theorem detectorUpdate_step_size (st : PState) (l : List Char) :
    (detectorUpdate st l).step_size = st.step_size := by
  unfold detectorUpdate; (repeat' split) <;> rfl

theorem detectorUpdate_int_jd0 (st : PState) (l : List Char) :
    (detectorUpdate st l).int_jd0 = st.int_jd0 := by
  unfold detectorUpdate; (repeat' split) <;> rfl

theorem detectorUpdate_frac_jd0 (st : PState) (l : List Char) :
    (detectorUpdate st l).frac_jd0 = st.frac_jd0 := by
  unfold detectorUpdate; (repeat' split) <;> rfl

theorem detectorUpdate_out (st : PState) (l : List Char) :
    (detectorUpdate st l).out = st.out := by
  unfold detectorUpdate; (repeat' split) <;> rfl

theorem detectorUpdate_console (st : PState) (l : List Char) :
    (detectorUpdate st l).console = st.console := by
  unfold detectorUpdate; (repeat' split) <;> rfl

theorem sampleUpd_eq_zero (st : PState) (l : List Char) (h : st.n_written = 0) :
    sampleUpd st l =
      { st with jd0 := atofQ l, int_jd0 := atoiZ l, frac_jd0 := atofQ (l.drop 7),
                out := st.out.write (descrLine st.object_name) } := by
  simp [sampleUpd, h]

theorem sampleUpd_eq_one (st : PState) (l : List Char) (h : st.n_written = 1) :
    sampleUpd st l =
      { st with step_size :=
          (atofQ (l.drop 7) - st.frac_jd0) + ((atoiZ l - st.int_jd0 : Int) : ℚ) } := by
  simp [sampleUpd, h]

theorem sampleUpd_eq_ge2 (st : PState) (l : List Char) (h : 2 ≤ st.n_written) :
    sampleUpd st l = st := by
  have h0 : (st.n_written == 0) = false := by
    simp only [beq_eq_false_iff_ne, ne_eq]; omega
  have h1 : (st.n_written == 1) = false := by
    simp only [beq_eq_false_iff_ne, ne_eq]; omega
  simp [sampleUpd, h0, h1]

/-! ### Unfolding lemmas for the scan loop -/

set_option maxHeartbeats 1600000

theorem processLines_nil (st : PState) : processLines st [] = (none, st) := rfl

theorem processLines_notqual (st : PState) (l : List Char) (rest : List (List Char))
    (h : qualifies l = false) :
    processLines st (l :: rest) = processLines (detectorUpdate st l) rest := by
  cases rest with
  | nil => rw [processLines.eq_2, h]; simp
  | cons a r => rw [processLines.eq_3, h]; simp

theorem processLines_frame (st : PState) (l : List Char) (rest : List (List Char))
    (h : qualifies l = true) (hf : (st.is_equatorial == st.is_ecliptical) = true) :
    processLines st (l :: rest) = (some (-1), addConsole st frameErrMsg) := by
  cases rest with
  | nil => rw [processLines.eq_2, h, hf]; simp
  | cons a r => rw [processLines.eq_3, h, hf]; simp

theorem processLines_trunc1 (st : PState) (l : List Char)
    (h : qualifies l = true) (hf : (st.is_equatorial == st.is_ecliptical) = false) :
    processLines st [l] = (some (-2), addConsole (sampleUpd st l) truncErrMsg) := by
  rw [processLines.eq_2, h, hf]; simp

theorem processLines_sample_nosv (st : PState) (l cl : List Char) (rest2 : List (List Char))
    (h : qualifies l = true) (hf : (st.is_equatorial == st.is_ecliptical) = false)
    (hsv : st.state_vectors = false) :
    processLines st (l :: cl :: rest2) =
      processLines (bump (emitNL (emitPos (sampleUpd st l) (atofQ l) cl))) rest2 := by
  have hsv2 : (emitPos (sampleUpd st l) (atofQ l) cl).state_vectors = false := by
    simp [emitPos, sampleUpd]; split <;> simp [hsv] <;> split <;> simp [hsv]
  rw [processLines.eq_3, h, hf]; simp [hsv2]

theorem processLines_sample_sv_trunc (st : PState) (l cl : List Char)
    (h : qualifies l = true) (hf : (st.is_equatorial == st.is_ecliptical) = false)
    (hsv : st.state_vectors = true) :
    processLines st [l, cl] =
      (some (-2), addConsole (emitPos (sampleUpd st l) (atofQ l) cl) truncErrMsg) := by
  have hsv2 : (emitPos (sampleUpd st l) (atofQ l) cl).state_vectors = true := by
    simp [emitPos, sampleUpd]; split <;> simp [hsv] <;> split <;> simp [hsv]
  rw [processLines.eq_3, h, hf]; simp [hsv2]

theorem processLines_sample_sv (st : PState) (l cl vl : List Char) (rest3 : List (List Char))
    (h : qualifies l = true) (hf : (st.is_equatorial == st.is_ecliptical) = false)
    (hsv : st.state_vectors = true) :
    processLines st (l :: cl :: vl :: rest3) =
      processLines (bump (emitVel (emitPos (sampleUpd st l) (atofQ l) cl) vl)) rest3 := by
  have hsv2 : (emitPos (sampleUpd st l) (atofQ l) cl).state_vectors = true := by
    simp [emitPos, sampleUpd]; split <;> simp [hsv] <;> split <;> simp [hsv]
  rw [processLines.eq_3, h, hf]; simp [hsv2]


/-! ### Loop invariants -/

theorem sampleUpd_n_written (st : PState) (l : List Char) :
    (sampleUpd st l).n_written = st.n_written := by
  unfold sampleUpd; (repeat' split) <;> rfl

theorem sampleUpd_state_vectors (st : PState) (l : List Char) :
    (sampleUpd st l).state_vectors = st.state_vectors := by
  unfold sampleUpd; (repeat' split) <;> rfl

theorem sampleUpd_is_equatorial (st : PState) (l : List Char) :
    (sampleUpd st l).is_equatorial = st.is_equatorial := by
  unfold sampleUpd; (repeat' split) <;> rfl

theorem sampleUpd_is_ecliptical (st : PState) (l : List Char) :
    (sampleUpd st l).is_ecliptical = st.is_ecliptical := by
  unfold sampleUpd; (repeat' split) <;> rfl

theorem sampleUpd_in_km_s (st : PState) (l : List Char) :
    (sampleUpd st l).in_km_s = st.in_km_s := by
  unfold sampleUpd; (repeat' split) <;> rfl

theorem sampleUpd_object_name (st : PState) (l : List Char) :
    (sampleUpd st l).object_name = st.object_name := by
  unfold sampleUpd; (repeat' split) <;> rfl

theorem sampleUpd_console (st : PState) (l : List Char) :
    (sampleUpd st l).console = st.console := by
  unfold sampleUpd; (repeat' split) <;> rfl

theorem processLines_step_const (st : PState) (lines : List (List Char)) :
    2 ≤ st.n_written → ((processLines st lines).2).step_size = st.step_size := by
  induction st, lines using processLines.induct with
  | case1 st => intro h2; simp [processLines_nil]
  | case2 st l rest hq hf =>
    intro h2
    rw [processLines_frame st l rest hq hf]
    simp [addConsole]
  | case3 st l hq hf =>
    intro h2
    rw [processLines_trunc1 st l hq (by simpa using hf)]
    simp [addConsole, sampleUpd_eq_ge2 st l h2]
  | case4 st l hq hf vl st2 hsv =>
    intro h2
    rw [show st2 = emitPos (sampleUpd st l) (atofQ l) vl from rfl] at hsv
    have hsv2 : st.state_vectors = true := by
      simpa [emitPos, sampleUpd_state_vectors] using hsv
    rw [processLines_sample_sv_trunc st l vl hq (by simpa using hf) hsv2]
    simp [addConsole, emitPos, sampleUpd_eq_ge2 st l h2]
  | case5 st l hq hf vl st2 hsv vl2 rest3 ih =>
    intro h2
    rw [show st2 = emitPos (sampleUpd st l) (atofQ l) vl from rfl] at hsv ih
    have hsv2 : st.state_vectors = true := by
      simpa [emitPos, sampleUpd_state_vectors] using hsv
    rw [processLines_sample_sv st l vl vl2 rest3 hq (by simpa using hf) hsv2]
    rw [ih (by simp [bump, emitVel, emitPos, sampleUpd_n_written]; omega)]
    simp [bump, emitVel, emitPos, sampleUpd_eq_ge2 st l h2]
  | case6 st l hq hf vl rest3 st2 hsv ih =>
    intro h2
    rw [show st2 = emitPos (sampleUpd st l) (atofQ l) vl from rfl] at hsv ih
    have hsv2 : st.state_vectors = false := by
      simpa [emitPos, sampleUpd_state_vectors] using hsv
    rw [processLines_sample_nosv st l vl rest3 hq (by simpa using hf) hsv2]
    rw [ih (by simp [bump, emitNL, emitPos, sampleUpd_n_written]; omega)]
    simp [bump, emitNL, emitPos, sampleUpd_eq_ge2 st l h2]
  | case7 st l rest hq ih =>
    intro h2
    rw [processLines_notqual st l rest (by simpa using hq)]
    rw [ih (by rw [detectorUpdate_n_written]; exact h2)]
    exact detectorUpdate_step_size st l

theorem detectorFold_nil (st : PState) : detectorFold st [] = st := rfl

theorem detectorFold_cons (st : PState) (l : List Char) (rest : List (List Char)) :
    detectorFold st (l :: rest) = detectorFold (detectorUpdate st l) rest := rfl

theorem detectorFold_n_written (st : PState) (lines : List (List Char)) :
    (detectorFold st lines).n_written = st.n_written := by
  induction lines generalizing st with
  | nil => rfl
  | cons l r ih => rw [detectorFold_cons, ih, detectorUpdate_n_written]

theorem detectorFold_jd0 (st : PState) (lines : List (List Char)) :
    (detectorFold st lines).jd0 = st.jd0 := by
  induction lines generalizing st with
  | nil => rfl
  | cons l r ih => rw [detectorFold_cons, ih, detectorUpdate_jd0]

theorem detectorFold_step_size (st : PState) (lines : List (List Char)) :
    (detectorFold st lines).step_size = st.step_size := by
  induction lines generalizing st with
  | nil => rfl
  | cons l r ih => rw [detectorFold_cons, ih, detectorUpdate_step_size]

theorem detectorFold_out (st : PState) (lines : List (List Char)) :
    (detectorFold st lines).out = st.out := by
  induction lines generalizing st with
  | nil => rfl
  | cons l r ih => rw [detectorFold_cons, ih, detectorUpdate_out]

theorem detectorFold_console (st : PState) (lines : List (List Char)) :
    (detectorFold st lines).console = st.console := by
  induction lines generalizing st with
  | nil => rfl
  | cons l r ih => rw [detectorFold_cons, ih, detectorUpdate_console]

theorem processLines_noqual (st : PState) (lines : List (List Char))
    (h : ∀ l ∈ lines, qualifies l = false) :
    processLines st lines = (none, detectorFold st lines) := by
  induction lines generalizing st with
  | nil => rw [processLines_nil, detectorFold_nil]
  | cons l r ih =>
    rw [processLines_notqual st l r (h l (by simp))]
    rw [ih _ (fun x hx => h x (by simp [hx]))]
    rw [detectorFold_cons]

/-! ### The per-sample state transition for equatorial AU position-only input -/

/-- The output bytes of one position-only sample record for equatorial
AU input: the position record and its closing newline. -/
def recordOfEq (t c : List Char) : List Char :=
  posRecord (atofQ t) (get_coords_from_buff c false) ++ ['\n']

/-- Input shape of a data section: each sample is a timestamp line
followed by its coordinate line. -/
def samplesBody (samples : List (List Char × List Char)) : List (List Char) :=
  (samples.map (fun p => [p.1, p.2])).flatten

/-- All record bytes of a data section. -/
def recordsOf (samples : List (List Char × List Char)) : List Char :=
  (samples.map (fun p => recordOfEq p.1 p.2)).flatten

theorem step_sample_ge2 (st : PState) (t c : List Char)
    (hecl : st.is_ecliptical = false) (hkm : st.in_km_s = false)
    (h2 : 2 ≤ st.n_written) (hpos : st.out.pos = st.out.content.length) :
    bump (emitNL (emitPos (sampleUpd st t) (atofQ t) c)) =
      { st with n_written := st.n_written + 1,
                out := ⟨st.out.content ++ recordOfEq t c,
                        (st.out.content ++ recordOfEq t c).length⟩ } := by
  rw [sampleUpd_eq_ge2 st t h2]
  unfold emitPos emitNL bump recordOfEq
  rw [OutFile.write_eq _ _ hpos, OutFile.write_eq _ _ (by simp)]
  simp [hecl, hkm, convertPos]

theorem step_sample_zero (st : PState) (t c : List Char)
    (hecl : st.is_ecliptical = false) (hkm : st.in_km_s = false)
    (h0 : st.n_written = 0) (hpos : st.out.pos = st.out.content.length) :
    bump (emitNL (emitPos (sampleUpd st t) (atofQ t) c)) =
      { st with n_written := 1, jd0 := atofQ t, int_jd0 := atoiZ t,
                frac_jd0 := atofQ (t.drop 7),
                out := ⟨st.out.content ++ (descrLine st.object_name ++ recordOfEq t c),
                        (st.out.content ++ (descrLine st.object_name ++ recordOfEq t c)).length⟩ } := by
  rw [sampleUpd_eq_zero st t h0]
  unfold emitPos emitNL bump recordOfEq
  rw [OutFile.write_eq _ _ hpos]
  rw [OutFile.write_eq _ _ (by simp), OutFile.write_eq _ _ (by simp)]
  simp [hecl, hkm, convertPos, h0]

theorem step_sample_one (st : PState) (t c : List Char)
    (hecl : st.is_ecliptical = false) (hkm : st.in_km_s = false)
    (h1 : st.n_written = 1) (hpos : st.out.pos = st.out.content.length) :
    bump (emitNL (emitPos (sampleUpd st t) (atofQ t) c)) =
      { st with n_written := 2,
                step_size := (atofQ (t.drop 7) - st.frac_jd0) + ((atoiZ t - st.int_jd0 : Int) : ℚ),
                out := ⟨st.out.content ++ recordOfEq t c,
                        (st.out.content ++ recordOfEq t c).length⟩ } := by
  rw [sampleUpd_eq_one st t h1]
  unfold emitPos emitNL bump recordOfEq
  rw [OutFile.write_eq _ _ hpos, OutFile.write_eq _ _ (by simp)]
  simp [hecl, hkm, convertPos, h1]

theorem processLines_samples (samples : List (List Char × List Char)) (st : PState)
    (heq : st.is_equatorial = true) (hecl : st.is_ecliptical = false)
    (hsv : st.state_vectors = false) (hkm : st.in_km_s = false)
    (h2 : 2 ≤ st.n_written) (hpos : st.out.pos = st.out.content.length)
    (hq : ∀ p ∈ samples, qualifies p.1 = true) :
    processLines st (samplesBody samples) =
      (none, { st with n_written := st.n_written + samples.length,
                       out := ⟨st.out.content ++ recordsOf samples,
                               (st.out.content ++ recordsOf samples).length⟩ }) := by
  induction samples generalizing st with
  | nil =>
    rw [show samplesBody [] = [] from rfl, processLines_nil]
    simp [recordsOf]
    cases st with
    | mk a b c d e f g h i j k m =>
      cases k with
      | mk kc kp => simp at hpos; simp [hpos]
  | cons p rest ih =>
    have hb : samplesBody (p :: rest) = p.1 :: p.2 :: samplesBody rest := by
      simp [samplesBody]
    rw [hb]
    rw [processLines_sample_nosv st p.1 p.2 (samplesBody rest)
      (hq p (by simp)) (by rw [heq, hecl]; rfl) hsv]
    rw [step_sample_ge2 st p.1 p.2 hecl hkm h2 hpos]
    rw [ih _ (by simp [heq]) (by simp [hecl]) (by simp [hsv]) (by simp [hkm])
      (by simp; omega) (by simp) (fun q hq2 => hq q (by simp [hq2]))]
    have hr : recordsOf (p :: rest) = recordOfEq p.1 p.2 ++ recordsOf rest := by
      simp [recordsOf]
    rw [hr]
    simp [List.append_assoc]
    omega

/-- Step size as the source computes it from two timestamp lines:
fractional-day difference plus integer-day difference. -/
def stepFromLines (t1 t2 : List Char) : ℚ :=
  (atofQ (t2.drop 7) - atofQ (t1.drop 7)) + ((atoiZ t2 - atoiZ t1 : Int) : ℚ)

/-- The step size a structured input yields: 0 with fewer than two
samples, else the difference of the first two timestamp lines. -/
def stepOfInput (s0 : List Char × List Char) (rest : List (List Char × List Char)) : ℚ :=
  match rest with
  | [] => 0
  | r1 :: _ => stepFromLines s0.1 r1.1

theorem initialOut_eq : initialOut = ⟨fmtHeader 0 0 0 ++ lit011, (fmtHeader 0 0 0 ++ lit011).length⟩ := by
  unfold initialOut
  rw [OutFile.write_eq OutFile.empty (fmtHeader 0 0 0) (by rfl)]
  rw [OutFile.write_eq _ _ (by simp)]
  simp [OutFile.empty]

theorem fmtHeader000_len : (fmtHeader 0 0 0).length = 33 := by
  with_unfolding_all decide

theorem processLines_append_noqual (st : PState) (pre rest : List (List Char))
    (h : ∀ l ∈ pre, qualifies l = false) :
    processLines st (pre ++ rest) = processLines (detectorFold st pre) rest := by
  induction pre generalizing st with
  | nil => rw [detectorFold_nil]; rfl
  | cons l r ih =>
    rw [List.cons_append, processLines_notqual st l (r ++ rest) (h l (by simp))]
    rw [ih _ (fun x hx => h x (by simp [hx])), detectorFold_cons]

theorem patch_eq (R : List Char) (hdr : List Char) (hl : hdr.length = 33) :
    OutFile.write (OutFile.seekStart ⟨fmtHeader 0 0 0 ++ (lit011 ++ R), ((fmtHeader 0 0 0 ++ (lit011 ++ R)).length)⟩) hdr
      = ⟨hdr ++ (lit011 ++ R), 33⟩ := by
  unfold OutFile.seekStart OutFile.write
  simp [hl]
  rw [show (33 : Nat) = (fmtHeader 0 0 0).length from fmtHeader000_len.symm]
  exact List.drop_left _ _

theorem processLines_structured (pre : List (List Char))
    (s0 : List Char × List Char) (rest : List (List Char × List Char))
    (hpre : ∀ l ∈ pre, qualifies l = false)
    (heq : (detectorFold initState pre).is_equatorial = true)
    (hecl : (detectorFold initState pre).is_ecliptical = false)
    (hsv : (detectorFold initState pre).state_vectors = false)
    (hkm : (detectorFold initState pre).in_km_s = false)
    (hq0 : qualifies s0.1 = true)
    (hq : ∀ p ∈ rest, qualifies p.1 = true) :
    processLines initState (pre ++ samplesBody (s0 :: rest)) =
      (none, { detectorFold initState pre with
               n_written := rest.length + 1,
               jd0 := atofQ s0.1, int_jd0 := atoiZ s0.1,
               frac_jd0 := atofQ (s0.1.drop 7),
               step_size := stepOfInput s0 rest,
               out := ⟨(detectorFold initState pre).out.content ++
                         (descrLine (detectorFold initState pre).object_name ++ recordsOf (s0 :: rest)),
                       ((detectorFold initState pre).out.content ++
                         (descrLine (detectorFold initState pre).object_name ++ recordsOf (s0 :: rest))).length⟩ }) := by
  rw [processLines_append_noqual _ _ _ hpre]
  have h0 : (detectorFold initState pre).n_written = 0 := by
    rw [detectorFold_n_written]; rfl
  have hpos1 : (detectorFold initState pre).out.pos = (detectorFold initState pre).out.content.length := by
    rw [detectorFold_out, show initState.out = initialOut from rfl, initialOut_eq]
  have hstep1 : (detectorFold initState pre).step_size = 0 := by
    rw [detectorFold_step_size]; rfl
  have hbody : samplesBody (s0 :: rest) = s0.1 :: s0.2 :: samplesBody rest := by
    simp [samplesBody]
  rw [hbody]
  rw [processLines_sample_nosv _ s0.1 s0.2 _ hq0 (by rw [heq, hecl]; rfl) hsv]
  rw [step_sample_zero _ s0.1 s0.2 hecl hkm h0 hpos1]
  cases rest with
  | nil =>
    rw [show samplesBody [] = [] from rfl, processLines_nil]
    simp only [stepOfInput, recordsOf, List.map_cons, List.map_nil, List.flatten_cons,
      List.flatten_nil, List.append_nil, List.length_nil, Nat.zero_add, Prod.mk.injEq, true_and]
    rw [hstep1]
  | cons r1 rest2 =>
    have hbody2 : samplesBody (r1 :: rest2) = r1.1 :: r1.2 :: samplesBody rest2 := by
      simp [samplesBody]
    rw [hbody2]
    rw [processLines_sample_nosv _ r1.1 r1.2 _ (hq r1 (by simp))
      (by simp [heq, hecl]) (by simp [hsv])]
    rw [step_sample_one _ r1.1 r1.2 (by simp [hecl]) (by simp [hkm]) (by simp) (by simp)]
    rw [processLines_samples rest2 _ (by simp [heq]) (by simp [hecl]) (by simp [hsv])
      (by simp [hkm]) (by simp) (by simp) (fun q hq2 => hq q (by simp [hq2]))]
    simp only [stepOfInput, stepFromLines, recordsOf, List.map_cons, List.flatten_cons,
      List.length_cons, Prod.mk.injEq, true_and]
    ext <;> simp [List.append_assoc] <;> try omega

theorem jpl2mpc_run_structured (ver : List Char) (pre : List (List Char))
    (s0 : List Char × List Char) (rest : List (List Char × List Char))
    (hpre : ∀ l ∈ pre, qualifies l = false)
    (heq : (detectorFold initState pre).is_equatorial = true)
    (hecl : (detectorFold initState pre).is_ecliptical = false)
    (hsv : (detectorFold initState pre).state_vectors = false)
    (hkm : (detectorFold initState pre).in_km_s = false)
    (hq0 : qualifies s0.1 = true)
    (hq : ∀ p ∈ rest, qualifies p.1 = true)
    (hw : (fmtHeader (atofQ s0.1) (stepOfInput s0 rest) (rest.length + 1)).length = 33) :
    jpl2mpc_run ver (pre ++ samplesBody (s0 :: rest)) =
      ⟨0, ⟨fmtHeader (atofQ s0.1) (stepOfInput s0 rest) (rest.length + 1) ++
            (lit011 ++ ((descrLine (detectorFold initState pre).object_name) ++
              (recordsOf (s0 :: rest) ++ (trailerLine ver ++
                preambleOf (pre ++ samplesBody (s0 :: rest)))))), 33⟩, []⟩ := by
  unfold jpl2mpc_run
  rw [processLines_structured pre s0 rest hpre heq hecl hsv hkm hq0 hq]
  dsimp only
  rw [detectorFold_console, show initState.console = [] from rfl]
  rw [detectorFold_out, show initState.out = initialOut from rfl, initialOut_eq]
  dsimp only
  rw [OutFile.write_write_eq _ _ _ (by simp; try omega)]
  simp only [List.append_assoc]
  rw [patch_eq _ _ hw]

/-! ### Concrete demonstration inputs (Horizons-style lines) -/

/-- A qualifying timestamp line at JD 2458765.5. -/
def tsLine1 : List Char := ("2458765.500000000 = A.D. 2019-Oct-09 00:00:00.0000 TDB \n").data

/-- A qualifying timestamp line at JD 2458766.5. -/
def tsLine2 : List Char := ("2458766.500000000 = A.D. 2019-Oct-10 00:00:00.0000 TDB \n").data

/-- An unlabelled coordinate line carrying (1, 2, 3). -/
def coordLine1 : List Char := ("  1.000000000000000E+00  2.000000000000000E+00  3.000000000000000E+00\n").data

/-- A header line carrying the equatorial frame marker. -/
def eqMarkerLine : List Char := (" Center geodetic : Earth Mean Equator and Equinox of Reference Epoch\n").data

/-- A target body name line resolving the Gaia identifier. -/
def nameLine : List Char := ("Target body name: Gaia (spacecraft) (-139479)     source: gaia_merged\n").data

/-- A labelled coordinate line carrying (1.5, 2.5, 3.5) at offsets {4,30,56}. -/
def labeledLine : List Char := (" X = 1.5                  Y =  2.5                   Z =  3.5\n").data

/-- An unlabelled coordinate line carrying (1.5, 2.5, 3.5) at offsets {1,24,47}. -/
def unlabeledLine : List Char := (" 1.5                    2.5                    3.5\n").data

/-! ### Claim theorems -/

/-- C4: with the ecliptic flag set, the parsed raw triple (x,y,z) is
rotated to (x, y cos − z sin, y sin + z cos) with the exact obliquity
constants of the source, and the km/s unit conversion of the main
loop is applied only after this rotation, separately to the position
and the velocity vector. -/
theorem ecliptic_rotation_before_unit_conversion (buff : List Char) (kms : Bool) :
    (get_coords_from_buff buff true).x = (get_coords_from_buff buff false).x ∧
    (get_coords_from_buff buff true).y =
      (get_coords_from_buff buff false).y * cos_obliq_2000 -
        (get_coords_from_buff buff false).z * sin_obliq_2000 ∧
    (get_coords_from_buff buff true).z =
      (get_coords_from_buff buff false).y * sin_obliq_2000 +
        (get_coords_from_buff buff false).z * cos_obliq_2000 ∧
    sin_obliq_2000 = 0.397777155931913701597179975942380896684 ∧
    cos_obliq_2000 = 0.917482062069181825744000384639406458043 ∧
    convertPos kms (get_coords_from_buff buff true) =
      convertPos kms ⟨(get_coords_from_buff buff false).x,
        (get_coords_from_buff buff false).y * cos_obliq_2000 -
          (get_coords_from_buff buff false).z * sin_obliq_2000,
        (get_coords_from_buff buff false).y * sin_obliq_2000 +
          (get_coords_from_buff buff false).z * cos_obliq_2000⟩ ∧
    convertVel kms (get_coords_from_buff buff true) =
      convertVel kms ⟨(get_coords_from_buff buff false).x,
        (get_coords_from_buff buff false).y * cos_obliq_2000 -
          (get_coords_from_buff buff false).z * sin_obliq_2000,
        (get_coords_from_buff buff false).y * sin_obliq_2000 +
          (get_coords_from_buff buff false).z * cos_obliq_2000⟩ := by
  have hx : (get_coords_from_buff buff true).x = (get_coords_from_buff buff false).x := by
    simp [get_coords_from_buff]
  have hy : (get_coords_from_buff buff true).y =
      (get_coords_from_buff buff false).y * cos_obliq_2000 -
        (get_coords_from_buff buff false).z * sin_obliq_2000 := by
    simp [get_coords_from_buff]
  have hz : (get_coords_from_buff buff true).z =
      (get_coords_from_buff buff false).y * sin_obliq_2000 +
        (get_coords_from_buff buff false).z * cos_obliq_2000 := by
    simp [get_coords_from_buff]; ring
  refine ⟨hx, hy, hz, rfl, rfl, ?_, ?_⟩
  · congr 1
    exact Vec3.ext hx hy hz
  · congr 1
    exact Vec3.ext hx hy hz

/-- C5: with the km/s flag set every position component is divided by
1.495978707e8 and every velocity component is multiplied by
86400 / 1.495978707e8; the position (149597870.7, 0, 0) km converts
to (1, 0, 0) AU within 1e-6. -/
theorem km_s_unit_conversion :
    (∀ v : Vec3, convertPos true v =
        ⟨v.x / 1.495978707e8, v.y / 1.495978707e8, v.z / 1.495978707e8⟩) ∧
    (∀ v : Vec3, convertVel true v =
        ⟨v.x * (86400 / 1.495978707e8), v.y * (86400 / 1.495978707e8),
         v.z * (86400 / 1.495978707e8)⟩) ∧
    |(convertPos true ⟨149597870.7, 0, 0⟩).x - 1| ≤ 1e-6 ∧
    (convertPos true ⟨149597870.7, 0, 0⟩).y = 0 ∧
    (convertPos true ⟨149597870.7, 0, 0⟩).z = 0 := by
  have hau : AU_IN_KM = 1.495978707e8 := rfl
  have hsec : seconds_per_day / AU_IN_KM = 86400 / 1.495978707e8 := by
    rw [hau]; norm_num [seconds_per_day]
  refine ⟨fun v => by simp [convertPos, hau], fun v => by simp [convertVel, hsec], ?_, ?_, ?_⟩
  · have h1 : (convertPos true ⟨149597870.7, 0, 0⟩).x = 1 := by
      norm_num [convertPos, AU_IN_KM]
    rw [h1]; norm_num
  · norm_num [convertPos]
  · norm_num [convertPos]

/-- C6: the labelled offsets {4,30,56} are selected exactly when an
'X' sits at offset 1 or 2, independently per line, and a labelled and
an unlabelled line carrying equal numeric values at their respective
offsets parse to the same coordinate triple. -/
theorem coord_layout_selection :
    (∀ b : List Char,
      (coordOffsets b = (4, 30, 56) ↔ (charAtD b 1 = 'X' ∨ charAtD b 2 = 'X')) ∧
      (coordOffsets b = (4, 30, 56) ∨ coordOffsets b = (1, 24, 47))) ∧
    (∀ bL bU : List Char, ∀ ecl : Bool,
      (charAtD bL 1 = 'X' ∨ charAtD bL 2 = 'X') →
      ¬(charAtD bU 1 = 'X' ∨ charAtD bU 2 = 'X') →
      atofQ (bL.drop 4) = atofQ (bU.drop 1) →
      atofQ (bL.drop 30) = atofQ (bU.drop 24) →
      atofQ (bL.drop 56) = atofQ (bU.drop 47) →
      get_coords_from_buff bL ecl = get_coords_from_buff bU ecl) := by
  constructor
  · intro b
    constructor
    · unfold coordOffsets
      split
      · rename_i hx
        simp only [Bool.or_eq_true, beq_iff_eq] at hx
        simp [hx]
      · rename_i hx
        simp only [Bool.or_eq_true, beq_iff_eq] at hx
        exact ⟨fun hcontra => absurd hcontra (by decide), fun hor => absurd hor hx⟩
    · unfold coordOffsets; split <;> simp
  · intro bL bU ecl hL hU h1 h2 h3
    have hoL : coordOffsets bL = (4, 30, 56) := by
      unfold coordOffsets
      rcases hL with h | h <;> simp [h]
    have hoU : coordOffsets bU = (1, 24, 47) := by
      unfold coordOffsets
      rw [not_or] at hU
      have : (charAtD bU 1 == 'X' || charAtD bU 2 == 'X') = false := by
        simp [hU.1, hU.2]
      rw [this]; rfl
    unfold get_coords_from_buff
    rw [hoL, hoU]
    dsimp only
    rw [h1, h2, h3]

/-- C7: a qualifying timestamp line reached while the equatorial and
ecliptic flags agree (both unset or both set) makes the loop report
the frame-ambiguity message and return -1, a negative code, leaving
the output exactly as it was — no record is emitted for that line or
any later one. -/
theorem frame_ambiguity_aborts (st : PState) (l : List Char) (rest : List (List Char))
    (hq : qualifies l = true) (hf : st.is_equatorial = st.is_ecliptical) :
    processLines st (l :: rest) = (some (-1), addConsole st frameErrMsg) ∧
    (addConsole st frameErrMsg).out = st.out ∧
    (addConsole st frameErrMsg).n_written = st.n_written ∧
    (addConsole st frameErrMsg).console = st.console ++ frameErrMsg ∧
    (-1 : Int) < 0 := by
  refine ⟨processLines_frame st l rest hq (by simp [hf]), by simp [addConsole],
    by simp [addConsole], by simp [addConsole], by norm_num⟩

/-- C2: a line is treated as a sample timestamp line iff its leading
numeric token lies strictly between 2,000,000 and 3,000,000, its
length exceeds 54, the 7 characters at offset 17 are " = A.D.", the
characters at offsets 42 and 45 are ':' and '.', and the 4
characters at offset 50 are " TDB". -/
theorem timestamp_line_iff (l : List Char) :
    qualifies l = true ↔
      ((2000000 : ℚ) < atofQ l ∧ atofQ l < (3000000 : ℚ) ∧ 54 < l.length ∧
        (l.drop 17).take 7 = litAD ∧ charAtD l 42 = ':' ∧ charAtD l 45 = '.' ∧
        (l.drop 50).take 4 = litTDB) := by
  have hq : qualifies l = (decide ((2000000 : ℚ) < atofQ l) && decide (atofQ l < (3000000 : ℚ)) &&
      decide (54 < l.length) && litAD.isPrefixOf (l.drop 17) &&
      (charAtD l 42 == ':') && (charAtD l 45 == '.') && litTDB.isPrefixOf (l.drop 50)) := by
    with_unfolding_all rfl
  rw [hq]
  simp only [Bool.and_eq_true, decide_eq_true_eq, beq_iff_eq, List.isPrefixOf_iff_prefix,
    and_assoc]
  constructor
  · rintro ⟨a, b, c, d, e, f, g⟩
    refine ⟨a, b, c, ?_, e, f, ?_⟩
    · have hd := List.prefix_iff_eq_take.mp d
      rw [show litAD.length = 7 from rfl] at hd
      exact hd.symm
    · have hg := List.prefix_iff_eq_take.mp g
      rw [show litTDB.length = 4 from rfl] at hg
      exact hg.symm
  · rintro ⟨a, b, c, d, e, f, g⟩
    refine ⟨a, b, c, ?_, e, f, ?_⟩
    · exact List.prefix_iff_eq_take.mpr (by rw [show litAD.length = 7 from rfl]; exact d.symm)
    · exact List.prefix_iff_eq_take.mpr (by rw [show litTDB.length = 4 from rfl]; exact g.symm)

/-- C3: on the second qualifying sample the recorded step size becomes
the fractional-day difference plus the integer-day difference against
the first sample, no later line changes it, and whenever the
integer/fraction decompositions are exact it equals the signed
Julian Date difference between the two samples. -/
theorem step_size_second_sample (st : PState) (l : List Char) (rest : List (List Char))
    (hq : qualifies l = true) (h1 : st.n_written = 1)
    (hf : st.is_equatorial ≠ st.is_ecliptical) :
    ((processLines st (l :: rest)).2).step_size =
      (atofQ (l.drop 7) - st.frac_jd0) + ((atoiZ l - st.int_jd0 : Int) : ℚ) ∧
    (((st.int_jd0 : ℚ) + st.frac_jd0 = st.jd0 ∧ (atoiZ l : ℚ) + atofQ (l.drop 7) = atofQ l) →
      ((processLines st (l :: rest)).2).step_size = atofQ l - st.jd0) := by
  have hf' : (st.is_equatorial == st.is_ecliptical) = false := by
    simp only [beq_eq_false_iff_ne]; exact hf
  have hstep : (sampleUpd st l).step_size =
      (atofQ (l.drop 7) - st.frac_jd0) + ((atoiZ l - st.int_jd0 : Int) : ℚ) := by
    rw [sampleUpd_eq_one st l h1]
  have main : ((processLines st (l :: rest)).2).step_size =
      (atofQ (l.drop 7) - st.frac_jd0) + ((atoiZ l - st.int_jd0 : Int) : ℚ) := by
    cases rest with
    | nil =>
      rw [processLines_trunc1 st l hq hf']
      simpa [addConsole] using hstep
    | cons cl rest2 =>
      cases hsv : st.state_vectors with
      | false =>
        rw [processLines_sample_nosv st l cl rest2 hq hf' hsv]
        rw [processLines_step_const _ _ (by simp [bump, emitNL, emitPos, sampleUpd_n_written, h1])]
        simpa [bump, emitNL, emitPos] using hstep
      | true =>
        cases rest2 with
        | nil =>
          rw [processLines_sample_sv_trunc st l cl hq hf' hsv]
          simpa [addConsole, emitPos] using hstep
        | cons vl rest3 =>
          rw [processLines_sample_sv st l cl vl rest3 hq hf' hsv]
          rw [processLines_step_const _ _
            (by simp [bump, emitVel, emitPos, sampleUpd_n_written, h1])]
          simpa [bump, emitVel, emitPos] using hstep
  refine ⟨main, fun hd => ?_⟩
  rw [main]
  have hcast : ((atoiZ l - st.int_jd0 : Int) : ℚ) = (atoiZ l : ℚ) - (st.int_jd0 : ℚ) := by
    push_cast; ring
  rw [hcast]
  linarith [hd.1, hd.2]

/-- C10: an input with no qualifying timestamp line exits with code 0
(the frame check never runs), the patched header keeps epoch 0, step
0, count 0, and neither the descriptive line nor any record is
written: the output is exactly the provisional header, the flag
suffix, the trailer, and the copied preamble. -/
theorem no_sample_lines_exit_zero (ver : List Char) (lines : List (List Char))
    (h : ∀ l ∈ lines, qualifies l = false) :
    jpl2mpc_run ver lines =
      ⟨0, ⟨fmtHeader 0 0 0 ++ (lit011 ++ (trailerLine ver ++ preambleOf lines)), 33⟩, []⟩ := by
  unfold jpl2mpc_run
  rw [processLines_noqual _ _ h]
  dsimp only
  rw [detectorFold_console, show initState.console = ([] : List Char) from rfl]
  rw [detectorFold_out, show initState.out = initialOut from rfl, initialOut_eq]
  rw [detectorFold_jd0, detectorFold_step_size, detectorFold_n_written]
  rw [show initState.jd0 = 0 from rfl, show initState.step_size = 0 from rfl,
    show initState.n_written = 0 from rfl]
  rw [OutFile.write_write_eq _ _ _ (by simp)]
  simp only [List.append_assoc]
  rw [patch_eq _ _ fmtHeader000_len]

/-- C8 (amended): the three error kinds carry three pairwise distinct
messages and negative exit codes; the truncated-input code (-2)
differs from the other two, but the argument/open error and the
frame-ambiguity error share the exit code -1, so the codes are not
pairwise distinct. -/
theorem error_reporting_distinct_messages :
    usageMsg ≠ frameErrMsg ∧ usageMsg ≠ truncErrMsg ∧ frameErrMsg ≠ truncErrMsg ∧
    (jpl2mpc_main [] none).exitCode = -1 ∧ (jpl2mpc_main [] none).console = usageMsg ∧
    (jpl2mpc_run [] [tsLine1, coordLine1]).exitCode = -1 ∧
    (jpl2mpc_run [] [tsLine1, coordLine1]).console = frameErrMsg ∧
    (jpl2mpc_run [] [eqMarkerLine, tsLine1]).exitCode = -2 ∧
    (jpl2mpc_run [] [eqMarkerLine, tsLine1]).console = truncErrMsg ∧
    (-1 : Int) < 0 ∧ (-2 : Int) < 0 ∧ (-2 : Int) ≠ -1 := by
  refine ⟨by decide, by decide, by decide, rfl, rfl, ?_, ?_, ?_, ?_, by norm_num, by norm_num,
    by decide⟩ <;> with_unfolding_all decide

/-- C8 counterexample: the argument/open error and the frame-ambiguity
error both end the process with exit code -1, so the claim that each
error kind's code is distinct from the other two fails. -/
theorem error_exit_codes_cex :
    (jpl2mpc_main [] none).console = usageMsg ∧
    (jpl2mpc_run [] [tsLine1, coordLine1]).console = frameErrMsg ∧
    (jpl2mpc_main [] none).exitCode = (jpl2mpc_run [] [tsLine1, coordLine1]).exitCode := by
  refine ⟨rfl, ?_, ?_⟩ <;> with_unfolding_all decide

/-! ### Guarded fingerprint access (totality of the timestamp test) -/

/-- A fixed-offset character access that reports `none` when the index
is not within the line's contents. -/
def charAtChecked (l : List Char) (i : Nat) : Option Char := l.get? i

/-- A fixed-offset `memcmp` that reports `none` when the compared
window is not entirely within the line's contents. -/
def memEqChecked (l : List Char) (off : Nat) (lit : List Char) : Option Bool :=
  if off + lit.length ≤ l.length then some (lit.isPrefixOf (l.drop off)) else none

/-- The timestamp test with every fixed-offset access bounds-checked,
in the same short-circuit order as the source. -/
def qualifiesChecked (l : List Char) : Option Bool :=
  if (2000000 : ℚ) < atofQ l then
    if atofQ l < (3000000 : ℚ) then
      if 54 < l.length then
        (memEqChecked l 17 litAD).bind fun b1 =>
          if b1 then
            (charAtChecked l 42).bind fun c42 =>
              if c42 == ':' then
                (charAtChecked l 45).bind fun c45 =>
                  if c45 == '.' then memEqChecked l 50 litTDB else some false
              else some false
          else some false
      else some false
    else some false
  else some false

/-- C9: the fixed-offset accesses of the timestamp test run only after
the length guard, so the bounds-checked variant never reports an
out-of-range access and agrees with the source's test on every line. -/
theorem fingerprint_access_guarded (l : List Char) :
    qualifiesChecked l = some (qualifies l) := by
  have hq : qualifies l = (decide ((2000000 : ℚ) < atofQ l) && decide (atofQ l < (3000000 : ℚ)) &&
      decide (54 < l.length) && litAD.isPrefixOf (l.drop 17) &&
      (charAtD l 42 == ':') && (charAtD l 45 == '.') && litTDB.isPrefixOf (l.drop 50)) := by
    with_unfolding_all rfl
  rw [hq]
  unfold qualifiesChecked
  by_cases h1 : (2000000 : ℚ) < atofQ l
  · by_cases h2 : atofQ l < (3000000 : ℚ)
    · by_cases h3 : 54 < l.length
      · have hm1 : memEqChecked l 17 litAD = some (litAD.isPrefixOf (l.drop 17)) := by
          unfold memEqChecked
          rw [if_pos (by simp [show litAD.length = 7 from rfl]; omega)]
        have hm2 : memEqChecked l 50 litTDB = some (litTDB.isPrefixOf (l.drop 50)) := by
          unfold memEqChecked
          rw [if_pos (by simp [show litTDB.length = 4 from rfl]; omega)]
        have hc42 : charAtChecked l 42 = some (charAtD l 42) := by
          unfold charAtChecked charAtD
          rw [List.get?_eq_getElem?, List.getElem?_eq_getElem (by omega)]
          rw [List.getD_eq_getElem l _ (by omega)]
        have hc45 : charAtChecked l 45 = some (charAtD l 45) := by
          unfold charAtChecked charAtD
          rw [List.get?_eq_getElem?, List.getElem?_eq_getElem (by omega)]
          rw [List.getD_eq_getElem l _ (by omega)]
        rw [if_pos h1, if_pos h2, if_pos h3, hm1, hm2]
        by_cases h4 : litAD.isPrefixOf (l.drop 17)
        · by_cases h5 : charAtD l 42 = ':'
          · by_cases h6 : charAtD l 45 = '.'
            · simp [h1, h2, h3, h4, h5, h6, hc42, hc45, beq_iff_eq]
            · simp [h1, h2, h3, h4, h5, h6, hc42, hc45, beq_iff_eq]
          · simp [h1, h2, h3, h4, h5, hc42, beq_iff_eq]
        · simp [h1, h2, h3, h4]
      · simp [h1, h2, h3]
    · simp [h1, h2]
  · simp [h1]

/-! ### The rendered header contains no line break -/

theorem digitCharOf_ne_newline (d : Nat) : digitCharOf d ≠ '\n' := by
  unfold digitCharOf
  have h : d % 10 < 10 := Nat.mod_lt _ (by norm_num)
  interval_cases hd : d % 10 <;> decide

theorem natToCharsAux_ne_newline (fuel : Nat) :
    ∀ (n : Nat) (ds : List Char), (∀ c ∈ ds, c ≠ '\n') →
      ∀ c ∈ natToCharsAux fuel n ds, c ≠ '\n' := by
  induction fuel with
  | zero => intro n ds hds; simpa [natToCharsAux] using hds
  | succ f ih =>
    intro n ds hds
    unfold natToCharsAux
    have hcons : ∀ c ∈ digitCharOf (n % 10) :: ds, c ≠ '\n' := by
      intro c hc
      rcases List.mem_cons.mp hc with h | h
      · rw [h]; exact digitCharOf_ne_newline _
      · exact hds c h
    split
    · exact hcons
    · exact ih _ _ hcons

theorem natToChars_ne_newline (n : Nat) : ∀ c ∈ natToChars n, c ≠ '\n' := by
  unfold natToChars
  exact natToCharsAux_ne_newline (n + 1) n [] (by simp)

theorem fmtFixedBody_ne_newline (n prec : Nat) : ∀ c ∈ fmtFixedBody n prec, c ≠ '\n' := by
  unfold fmtFixedBody
  intro c hc
  have hpad : ∀ d ∈ List.replicate (prec + 1 - (natToChars n).length) '0' ++ natToChars n,
      d ≠ '\n' := by
    intro d hd
    rcases List.mem_append.mp hd with h | h
    · rw [List.eq_of_mem_replicate h]; decide
    · exact natToChars_ne_newline n d h
  rcases List.mem_append.mp hc with h | h
  · exact hpad c (List.mem_of_mem_take h)
  · rcases List.mem_cons.mp h with h2 | h2
    · rw [h2]; decide
    · exact hpad c (List.mem_of_mem_drop h2)

theorem fmtF_ne_newline (w p : Nat) (q : ℚ) : ∀ c ∈ fmtF w p q, c ≠ '\n' := by
  unfold fmtF
  intro c hc
  dsimp only at hc
  rcases List.mem_append.mp hc with h | h
  · rw [List.eq_of_mem_replicate h]; decide
  · split at h
    · rcases List.mem_cons.mp h with h2 | h2
      · rw [h2]; decide
      · exact fmtFixedBody_ne_newline _ _ c h2
    · exact fmtFixedBody_ne_newline _ _ c h

theorem fmtU_ne_newline (w n : Nat) : ∀ c ∈ fmtU w n, c ≠ '\n' := by
  unfold fmtU
  intro c hc
  dsimp only at hc
  rcases List.mem_append.mp hc with h | h
  · rw [List.eq_of_mem_replicate h]; decide
  · exact natToChars_ne_newline n c h

theorem fmtHeader_ne_newline (jd step : ℚ) (n : Nat) :
    ∀ c ∈ fmtHeader jd step n, c ≠ '\n' := by
  unfold fmtHeader
  intro c hc
  rcases List.mem_append.mp hc with h | h
  · exact fmtF_ne_newline _ _ _ c h
  · rcases List.mem_cons.mp h with h2 | h2
    · rw [h2]; decide
    · rcases List.mem_append.mp h2 with h3 | h3
      · exact fmtF_ne_newline _ _ _ c h3
      · rcases List.mem_cons.mp h3 with h4 | h4
        · rw [h4]; decide
        · exact fmtU_ne_newline _ _ c h4

theorem firstLineOf_append (A B : List Char) (hA : ∀ c ∈ A, c ≠ '\n') :
    firstLineOf (A ++ '\n' :: B) = A := by
  unfold firstLineOf
  induction A with
  | nil => simp
  | cons a r ih =>
    have ha : (a == '\n') = false := by
      have := hA a (by simp)
      simpa using this
    simp only [List.cons_append, List.takeWhile_cons, ha, Bool.not_false, if_true]
    rw [ih (fun c hc => hA c (by simp [hc]))]

theorem descrLine_split (name : List Char) :
    descrLine name = (if name.isEmpty then [] else litGeocentric ++ name) ++ ['\n'] := by
  unfold descrLine; split <;> simp

/-- C1 (amended): for every valid equatorial, AU-unit, position-only
input whose data section holds N qualifying timestamp lines, the run
exits with code 0 and writes exactly the N data records of the
section; after the final rewind-and-patch the first output line is
the epoch Julian Date, the step size and the count N rendered as
"%13.5f %14.10f %4u", the fixed literal " 0,1,1", and additionally,
when an object name was resolved, the annotation
" (500) Geocentric: <name>" on that same first line (the claim as
stated holds exactly when no object name was resolved). -/
theorem record_count_and_header (ver : List Char) (pre : List (List Char))
    (s0 : List Char × List Char) (rest : List (List Char × List Char))
    (hpre : ∀ l ∈ pre, qualifies l = false)
    (heq : (detectorFold initState pre).is_equatorial = true)
    (hecl : (detectorFold initState pre).is_ecliptical = false)
    (hsv : (detectorFold initState pre).state_vectors = false)
    (hkm : (detectorFold initState pre).in_km_s = false)
    (hq0 : qualifies s0.1 = true)
    (hq : ∀ p ∈ rest, qualifies p.1 = true)
    (hw : (fmtHeader (atofQ s0.1) (stepOfInput s0 rest) (rest.length + 1)).length = 33)
    (hname : '\n' ∉ (detectorFold initState pre).object_name) :
    (jpl2mpc_run ver (pre ++ samplesBody (s0 :: rest))).exitCode = 0 ∧
    (jpl2mpc_run ver (pre ++ samplesBody (s0 :: rest))).out.content =
      fmtHeader (atofQ s0.1) (stepOfInput s0 rest) (rest.length + 1) ++
        (lit011 ++ (descrLine (detectorFold initState pre).object_name ++
          (recordsOf (s0 :: rest) ++ (trailerLine ver ++
            preambleOf (pre ++ samplesBody (s0 :: rest)))))) ∧
    recordsOf (s0 :: rest) = ((s0 :: rest).map (fun p => recordOfEq p.1 p.2)).flatten ∧
    ((s0 :: rest).map (fun p => recordOfEq p.1 p.2)).length = rest.length + 1 ∧
    firstLineOf (jpl2mpc_run ver (pre ++ samplesBody (s0 :: rest))).out.content =
      fmtHeader (atofQ s0.1) (stepOfInput s0 rest) (rest.length + 1) ++
        (lit011 ++ (if (detectorFold initState pre).object_name.isEmpty then []
                    else litGeocentric ++ (detectorFold initState pre).object_name)) := by
  have hrun := jpl2mpc_run_structured ver pre s0 rest hpre heq hecl hsv hkm hq0 hq hw
  rw [hrun]
  refine ⟨rfl, rfl, rfl, by simp, ?_⟩
  dsimp only
  rw [descrLine_split]
  have hannot : ∀ c ∈ (if (detectorFold initState pre).object_name.isEmpty then ([] : List Char)
      else litGeocentric ++ (detectorFold initState pre).object_name), c ≠ '\n' := by
    intro c hc
    split at hc
    · simp at hc
    · rcases List.mem_append.mp hc with h | h
      · revert h
        have : ∀ c2 ∈ litGeocentric, c2 ≠ '\n' := by decide
        exact fun h => this c h
      · intro heq2
        rw [heq2] at h
        exact hname h
  have hA : ∀ c ∈ fmtHeader (atofQ s0.1) (stepOfInput s0 rest) (rest.length + 1) ++
      (lit011 ++ (if (detectorFold initState pre).object_name.isEmpty then ([] : List Char)
        else litGeocentric ++ (detectorFold initState pre).object_name)), c ≠ '\n' := by
    intro c hc
    rcases List.mem_append.mp hc with h | h
    · exact fmtHeader_ne_newline _ _ _ c h
    · rcases List.mem_append.mp h with h2 | h2
      · revert h2
        have : ∀ c2 ∈ lit011, c2 ≠ '\n' := by decide
        exact fun h2 => this c h2
      · exact hannot c h2
  calc firstLineOf (fmtHeader (atofQ s0.1) (stepOfInput s0 rest) (rest.length + 1) ++
        (lit011 ++ (((if (detectorFold initState pre).object_name.isEmpty then ([] : List Char)
          else litGeocentric ++ (detectorFold initState pre).object_name) ++ ['\n']) ++
          (recordsOf (s0 :: rest) ++ (trailerLine ver ++
            preambleOf (pre ++ samplesBody (s0 :: rest)))))))
      = firstLineOf ((fmtHeader (atofQ s0.1) (stepOfInput s0 rest) (rest.length + 1) ++
          (lit011 ++ (if (detectorFold initState pre).object_name.isEmpty then ([] : List Char)
            else litGeocentric ++ (detectorFold initState pre).object_name))) ++
          '\n' :: (recordsOf (s0 :: rest) ++ (trailerLine ver ++
            preambleOf (pre ++ samplesBody (s0 :: rest))))) := by
        simp [List.append_assoc]
    _ = _ := firstLineOf_append _ _ hA

/-! ### Witnesses and counterexamples on concrete inputs -/

set_option maxRecDepth 4000

/-- C1 counterexample: on a valid input that resolves an object name
(the Gaia identifier), the first output line carries the annotation
after " 0,1,1", so the first line is not the claimed
header-plus-suffix alone. -/
theorem first_line_annotation_cex :
    (jpl2mpc_run [] [nameLine, eqMarkerLine, tsLine1, coordLine1]).exitCode = 0 ∧
    firstLineOf (jpl2mpc_run [] [nameLine, eqMarkerLine, tsLine1, coordLine1]).out.content =
      fmtHeader (atofQ tsLine1) 0 1 ++ (lit011 ++ (litGeocentric ++ look_up_name (-139479))) ∧
    firstLineOf (jpl2mpc_run [] [nameLine, eqMarkerLine, tsLine1, coordLine1]).out.content ≠
      fmtHeader (atofQ tsLine1) 0 1 ++ lit011 := by
  refine ⟨?_, ?_, ?_⟩ <;> with_unfolding_all decide

/-- C1 witness: a concrete valid two-sample equatorial AU input. -/
theorem record_count_and_header_witness :
    (∀ l ∈ [eqMarkerLine], qualifies l = false) ∧
    (detectorFold initState [eqMarkerLine]).is_equatorial = true ∧
    (jpl2mpc_run [] ([eqMarkerLine] ++
      samplesBody [(tsLine1, coordLine1), (tsLine2, coordLine1)])).exitCode = 0 ∧
    firstLineOf (jpl2mpc_run [] ([eqMarkerLine] ++
        samplesBody [(tsLine1, coordLine1), (tsLine2, coordLine1)])).out.content =
      fmtHeader (atofQ tsLine1)
          (stepOfInput (tsLine1, coordLine1) [(tsLine2, coordLine1)]) 2 ++
        (lit011 ++ (if (detectorFold initState [eqMarkerLine]).object_name.isEmpty then []
                    else litGeocentric ++ (detectorFold initState [eqMarkerLine]).object_name)) :=
  ⟨by with_unfolding_all decide, by with_unfolding_all decide,
   (record_count_and_header [] [eqMarkerLine] (tsLine1, coordLine1) [(tsLine2, coordLine1)]
      (by with_unfolding_all decide) (by with_unfolding_all decide)
      (by with_unfolding_all decide) (by with_unfolding_all decide)
      (by with_unfolding_all decide) (by with_unfolding_all decide)
      (by with_unfolding_all decide) (by with_unfolding_all decide)
      (by with_unfolding_all decide)).1,
   (record_count_and_header [] [eqMarkerLine] (tsLine1, coordLine1) [(tsLine2, coordLine1)]
      (by with_unfolding_all decide) (by with_unfolding_all decide)
      (by with_unfolding_all decide) (by with_unfolding_all decide)
      (by with_unfolding_all decide) (by with_unfolding_all decide)
      (by with_unfolding_all decide) (by with_unfolding_all decide)
      (by with_unfolding_all decide)).2.2.2.2⟩

/-- A concrete scan-loop state that has written exactly one sample. -/
def stWitness : PState := { initState with n_written := 1, is_equatorial := true }

/-- C3 witness: the concrete second sample line sets the step size. -/
theorem step_size_second_sample_witness :
    qualifies tsLine2 = true ∧ stWitness.n_written = 1 ∧
    stWitness.is_equatorial ≠ stWitness.is_ecliptical ∧
    (((processLines stWitness [tsLine2]).2).step_size =
      (atofQ (tsLine2.drop 7) - stWitness.frac_jd0) +
        ((atoiZ tsLine2 - stWitness.int_jd0 : Int) : ℚ) ∧
     (((stWitness.int_jd0 : ℚ) + stWitness.frac_jd0 = stWitness.jd0 ∧
        (atoiZ tsLine2 : ℚ) + atofQ (tsLine2.drop 7) = atofQ tsLine2) →
       ((processLines stWitness [tsLine2]).2).step_size = atofQ tsLine2 - stWitness.jd0)) :=
  ⟨by with_unfolding_all decide, rfl, by decide,
   step_size_second_sample stWitness tsLine2 [] (by with_unfolding_all decide) rfl (by decide)⟩

/-- C6 witness: a labelled and an unlabelled line carrying the same
values parse to the same triple. -/
theorem coord_layout_selection_witness :
    (charAtD labeledLine 1 = 'X' ∨ charAtD labeledLine 2 = 'X') ∧
    ¬(charAtD unlabeledLine 1 = 'X' ∨ charAtD unlabeledLine 2 = 'X') ∧
    atofQ (labeledLine.drop 4) = atofQ (unlabeledLine.drop 1) ∧
    atofQ (labeledLine.drop 30) = atofQ (unlabeledLine.drop 24) ∧
    atofQ (labeledLine.drop 56) = atofQ (unlabeledLine.drop 47) ∧
    get_coords_from_buff labeledLine false = get_coords_from_buff unlabeledLine false := by
  have h1 : atofQ (labeledLine.drop 4) = atofQ (unlabeledLine.drop 1) :=
    Rat.ext (by with_unfolding_all decide) (by with_unfolding_all decide)
  have h2 : atofQ (labeledLine.drop 30) = atofQ (unlabeledLine.drop 24) :=
    Rat.ext (by with_unfolding_all decide) (by with_unfolding_all decide)
  have h3 : atofQ (labeledLine.drop 56) = atofQ (unlabeledLine.drop 47) :=
    Rat.ext (by with_unfolding_all decide) (by with_unfolding_all decide)
  exact ⟨by decide, by decide, h1, h2, h3,
    coord_layout_selection.2 labeledLine unlabeledLine false (by decide) (by decide) h1 h2 h3⟩

/-- C7 witness: a qualifying line reached in the initial state (no
frame marker seen) aborts with the frame message and code -1. -/
theorem frame_ambiguity_aborts_witness :
    qualifies tsLine1 = true ∧ initState.is_equatorial = initState.is_ecliptical ∧
    (processLines initState (tsLine1 :: [coordLine1]) =
        (some (-1), addConsole initState frameErrMsg) ∧
     (addConsole initState frameErrMsg).out = initState.out ∧
     (addConsole initState frameErrMsg).n_written = initState.n_written ∧
     (addConsole initState frameErrMsg).console = initState.console ++ frameErrMsg ∧
     (-1 : Int) < 0) :=
  ⟨by with_unfolding_all decide, rfl,
   frame_ambiguity_aborts initState tsLine1 [coordLine1] (by with_unfolding_all decide) rfl⟩

/-- C10 witness: a single non-qualifying line gives exit 0 and the
unchanged zero header. -/
theorem no_sample_lines_exit_zero_witness :
    (∀ l ∈ [eqMarkerLine], qualifies l = false) ∧
    jpl2mpc_run [] [eqMarkerLine] =
      ⟨0, ⟨fmtHeader 0 0 0 ++ (lit011 ++ (trailerLine [] ++ preambleOf [eqMarkerLine])), 33⟩, []⟩ :=
  ⟨by with_unfolding_all decide,
   no_sample_lines_exit_zero [] [eqMarkerLine] (by with_unfolding_all decide)⟩
